import Mathlib

/-!
Shallow embedding of the fantasy-draft-assistant core
(`src/stores/draftStore.ts`, `src/stores/userPreferencesStore.ts`,
`src/lib/playerDatabase.ts`, types from `src/types.ts`).

Modelling conventions:
* JavaScript numbers are modelled as `Nat` (pick counters, timers, counts),
  `Int` (team indexes, which the store can set to caller-supplied negative
  values such as `-1`), and `ℚ` (statistical values fed through arithmetic
  such as `vorp` and adjusted values).  All reachable states of the store
  keep `currentPick ≥ 1` (it is initialised to `1` and only ever
  incremented), which is the domain on which the `Nat` arithmetic below
  agrees with the JavaScript float arithmetic of the source.
* `Date` timestamps are modelled as an abstract `Nat` tick passed in by the
  caller; no claim is about timestamp values.
* The zustand store is modelled as an explicit record `DraftStoreState`;
  each action is a pure function `DraftStoreState → ... → DraftStoreState`.
  The derived `recommendations` cache (written only by
  `generateRecommendations`, which touches no other field) is outside every
  claim and is not carried in the record.
* The TS `Player` union (offensive / IDP / team-defense / kicker) is
  modelled as one structure with optional stat fields; the JavaScript
  field-presence test `'vorp' in player` (resp. `'tier' in player`)
  becomes `Option.isSome` of the corresponding field.
-/

namespace FantasyDraft

/-- Position enumeration from `src/types.ts`. -/
inductive Position
  | QB | RB | WR | TE | K | DEF | DB | DL | LB
deriving DecidableEq

/-- Player record (union of the four TS player shapes, flattened; `vorp`,
`fps` are present exactly on offensive players and `tier` exactly on IDP
players, modelled by `Option`).  `projectedStats` is the stat bag, an
insertion-ordered key/value object. -/
structure Player where
  id : String
  name : String
  team : String
  position : Position
  byeWeek : Nat
  vorp : Option ℚ
  fps : Option ℚ
  tier : Option Nat
  projectedStats : List (String × ℚ)
deriving DecidableEq

/-- DraftPick from `src/types.ts`: append-only log entry.  `teamIndex` is an
`Int` because `markPlayerAsDrafted` stores the caller-supplied index
verbatim, including out-of-range values such as `-1`. -/
structure DraftPick where
  pickNumber : Nat
  teamIndex : Int
  player : Option Player
  timestamp : Nat
deriving DecidableEq

/-- DraftTeam from `src/types.ts`. -/
structure DraftTeam where
  id : String
  name : String
  roster : List Player
  isUser : Bool
deriving DecidableEq

/-- Roster slot counts, the fixed-key `rosterPositions` object of
`DraftSettings` in `src/types.ts` (`W-R-T` is the flex slot, `BN` bench,
`IR` injured reserve). -/
structure RosterPositions where
  QB : Nat
  RB : Nat
  WR : Nat
  TE : Nat
  WRT : Nat
  K : Nat
  DEF : Nat
  DB : Nat
  DL : Nat
  LB : Nat
  BN : Nat
  IR : Nat
deriving DecidableEq

/-- Sum of all roster slot counts (used by the configuration-validation
claim: "roster position counts summing to zero"). -/
def RosterPositions.total (r : RosterPositions) : Nat :=
  r.QB + r.RB + r.WR + r.TE + r.WRT + r.K + r.DEF + r.DB + r.DL + r.LB + r.BN + r.IR

/-- Draft type: snake or linear. -/
inductive DraftType
  | snake | linear
deriving DecidableEq

/-- DraftSettings from `src/types.ts`. -/
structure DraftSettings where
  numberOfTeams : Nat
  userTeamIndex : Nat
  draftType : DraftType
  pickTimeLimit : Nat
  rosterPositions : RosterPositions
deriving DecidableEq

/-- The zustand draft store state (`DraftState` fields plus the extra
`settings` and `availablePlayers` fields of `DraftStore` in
`src/stores/draftStore.ts`). -/
structure DraftStoreState where
  isActive : Bool
  currentPick : Nat
  currentTeamIndex : Int
  picks : List DraftPick
  timeRemaining : Nat
  teams : List DraftTeam
  settings : Option DraftSettings
  availablePlayers : List Player
deriving DecidableEq

/-- JavaScript `array.map((x, i) => ...)`: map with the element index. -/
def mapWithIndex (f : Nat → α → β) : List α → List β
  | [] => []
  | a :: as => f 0 a :: mapWithIndex (fun i x => f (i + 1) x) as

/-- JavaScript `Math.ceil(p / n)` for the natural numbers that occur in the
store (`p ≥ 0`, `n ≥ 1`). -/
def jsCeilDiv (p n : Nat) : Nat := (p + n - 1) / n

/-- The `initialState` literal of `src/stores/draftStore.ts` together with
the store-level `settings: null`, `availablePlayers: []`. -/
def initialStoreState : DraftStoreState :=
  { isActive := false
    currentPick := 1
    currentTeamIndex := 0
    picks := []
    timeRemaining := 120
    teams := []
    settings := none
    availablePlayers := [] }

/-- `initializeDraft(settings, teams, players)` from
`src/stores/draftStore.ts` (lines 47-59): unconditionally overwrites the
session fields; there is no validation of the settings. -/
def initializeDraft (s : DraftStoreState) (settings : DraftSettings)
    (teams : List DraftTeam) (players : List Player) : DraftStoreState :=
  { s with
    settings := some settings
    teams := teams
    availablePlayers := players
    picks := []
    currentPick := 1
    currentTeamIndex := 0
    timeRemaining := settings.pickTimeLimit
    isActive := false }

/-- `startDraft()` from `src/stores/draftStore.ts`. -/
def startDraft (s : DraftStoreState) : DraftStoreState := { s with isActive := true }

/-- `pauseDraft()` from `src/stores/draftStore.ts`. -/
def pauseDraft (s : DraftStoreState) : DraftStoreState := { s with isActive := false }

/-- The next-team-index computation of `makePick` (lines 96-115 of
`src/stores/draftStore.ts`), as a function of the pick just made
(`currentPick`), the current team index, the team count and the draft
type.  `round` is the 1-based round of the pick just made and
`pickInRound` its 1-based position in that round. -/
def makePickNextTeamIndex (currentPick : Nat) (currentTeamIndex : Int)
    (totalTeams : Nat) (draftType : DraftType) : Int :=
  match draftType with
  | .snake =>
    let round := jsCeilDiv currentPick totalTeams
    let pickInRound := (currentPick - 1) % totalTeams + 1
    if round % 2 = 1 then
      if pickInRound = totalTeams then (totalTeams : Int) - 1 else (pickInRound : Int)
    else
      if pickInRound = totalTeams then 0 else (totalTeams : Int) - (pickInRound : Int)
  | .linear => (currentTeamIndex + 1) % (totalTeams : Int)

/-- `makePick(player)` from `src/stores/draftStore.ts` (lines 69-127).
The only guard is `if (!state.settings) return`; there is no check that
`player` is a member of `availablePlayers`.  `ts` stands for the
`new Date()` timestamp. -/
def makePick (s : DraftStoreState) (player : Player) (ts : Nat) : DraftStoreState :=
  match s.settings with
  | none => s
  | some st =>
    let newPick : DraftPick :=
      { pickNumber := s.currentPick
        teamIndex := s.currentTeamIndex
        player := some player
        timestamp := ts }
    let updatedTeams := mapWithIndex (fun i team =>
      if (i : Int) = s.currentTeamIndex then
        { team with roster := team.roster ++ [player] }
      else team) s.teams
    let updatedAvailablePlayers := s.availablePlayers.filter (fun p => p.id ≠ player.id)
    let nextTeamIndex :=
      makePickNextTeamIndex s.currentPick s.currentTeamIndex st.numberOfTeams st.draftType
    { s with
      picks := s.picks ++ [newPick]
      teams := updatedTeams
      availablePlayers := updatedAvailablePlayers
      currentPick := s.currentPick + 1
      currentTeamIndex := nextTeamIndex
      timeRemaining := st.pickTimeLimit }

/-- Insert a player into a name-sorted list, before the first entry whose
name is not smaller — so an element inserted from the left stays before
later elements with an equal name (stability). -/
def insertByName (p : Player) : List Player → List Player
  | [] => [p]
  | q :: qs =>
    if q.name.toList < p.name.toList then q :: insertByName p qs
    else p :: q :: qs

/-- The name sort used by `undoLastPick` when re-inserting a player:
`.sort((a, b) => a.name.localeCompare(b.name))`, modelled as a stable
insertion sort on the code-point order of the names (the JavaScript engine
sort is required to be stable; `localeCompare` agrees with code-point
order on the ASCII player names involved). -/
def sortByName : List Player → List Player
  | [] => []
  | p :: ps => insertByName p (sortByName ps)

/-- `undoLastPick()` from `src/stores/draftStore.ts` (lines 129-163). -/
def undoLastPick (s : DraftStoreState) : DraftStoreState :=
  match s.picks.getLast? with
  | none => s
  | some lastPick =>
    match lastPick.player with
    | none => s
    | some lp =>
      let updatedPicks := s.picks.dropLast
      let updatedTeams := mapWithIndex (fun i team =>
        if (i : Int) = lastPick.teamIndex then
          { team with roster := team.roster.filter (fun p => p.id ≠ lp.id) }
        else team) s.teams
      let updatedAvailablePlayers := sortByName (s.availablePlayers ++ [lp])
      { s with
        picks := updatedPicks
        teams := updatedTeams
        availablePlayers := updatedAvailablePlayers
        currentPick := lastPick.pickNumber
        currentTeamIndex := lastPick.teamIndex }

/-- `updateTimer(timeRemaining)` from `src/stores/draftStore.ts`. -/
def updateTimer (s : DraftStoreState) (timeRemaining : Nat) : DraftStoreState :=
  { s with timeRemaining := timeRemaining }

/-- The next-team-index computation of `markPlayerAsDrafted` (lines
594-615 of `src/stores/draftStore.ts`): computed for the NEXT pick from
the 0-based-round formula when settings exist, else the caller-supplied
`teamIndex` is kept. -/
def markDraftedNextTeamIndex (nextPick : Nat) (teamIndex : Int)
    (settings : Option DraftSettings) : Int :=
  match settings with
  | none => teamIndex
  | some st =>
    match st.draftType with
    | .snake =>
      let nextRound := (nextPick - 1) / st.numberOfTeams
      let nextPositionInRound := (nextPick - 1) % st.numberOfTeams
      if nextRound % 2 = 0 then (nextPositionInRound : Int)
      else (st.numberOfTeams : Int) - 1 - (nextPositionInRound : Int)
    | .linear => (teamIndex + 1) % (st.numberOfTeams : Int)

/-- `markPlayerAsDrafted(player, teamIndex)` from `src/stores/draftStore.ts`
(lines 564-627): removes the player from `availablePlayers`, appends the
player to `teams[teamIndex].roster` only when `0 ≤ teamIndex < teams.length`,
always appends a `DraftPick` carrying the caller-supplied `teamIndex`, and
advances `currentPick`.  `state.settings?.pickTimeLimit || 120` is the
JavaScript falsy-fallback: a configured limit of `0` also falls back to
`120`. -/
def markPlayerAsDrafted (s : DraftStoreState) (player : Player) (teamIndex : Int)
    (ts : Nat) : DraftStoreState :=
  let updatedAvailablePlayers := s.availablePlayers.filter (fun p => p.id ≠ player.id)
  let updatedTeams :=
    if 0 ≤ teamIndex ∧ teamIndex < (s.teams.length : Int) then
      mapWithIndex (fun i team =>
        if (i : Int) = teamIndex then
          { team with roster := team.roster ++ [player] }
        else team) s.teams
    else s.teams
  let newPick : DraftPick :=
    { pickNumber := s.currentPick
      teamIndex := teamIndex
      player := some player
      timestamp := ts }
  let nextPick := s.currentPick + 1
  let nextTeamIndex := markDraftedNextTeamIndex nextPick teamIndex s.settings
  { s with
    availablePlayers := updatedAvailablePlayers
    teams := updatedTeams
    picks := s.picks ++ [newPick]
    currentPick := nextPick
    currentTeamIndex := nextTeamIndex
    timeRemaining :=
      match s.settings with
      | some st => if st.pickTimeLimit = 0 then 120 else st.pickTimeLimit
      | none => 120 }

/-- The pure snake turn-order function exactly as the specification words
it (spec section 4.3 "Turn-order algorithm"): `round = floor((pickNumber -
1) / numberOfTeams)` (0-based), `posInRound = (pickNumber - 1) mod
numberOfTeams`; even round gives `posInRound`, odd round gives
`numberOfTeams - 1 - posInRound`.  Written from the spec's words for the
refinement comparison with `makePickNextTeamIndex`. -/
def specSnakeTeamIndex (pickNumber numberOfTeams : Nat) : Int :=
  let round := (pickNumber - 1) / numberOfTeams
  let posInRound := (pickNumber - 1) % numberOfTeams
  if round % 2 = 0 then (posInRound : Int)
  else (numberOfTeams : Int) - 1 - (posInRound : Int)

/-! ## User preferences store (`src/stores/userPreferencesStore.ts`) -/

/-- PlayerNote from `src/types.ts` (`customRanking` is the optional custom
rank). -/
structure PlayerNote where
  playerId : String
  note : String
  isTarget : Bool
  isAvoid : Bool
  customRanking : Option Nat
deriving DecidableEq

/-- The state fields of `useUserPreferencesStore` that
`calculateAdjustedValue` reads (`UserPreferences` in `src/types.ts`). -/
structure UserPreferences where
  favoriteTeams : List String
  avoidTeams : List String
  playerNotes : List PlayerNote
  draftStrategy : String
  prioritizePositions : List Position
deriving DecidableEq

/-- `getPlayerNote(playerId)` from `src/stores/userPreferencesStore.ts`:
`state.playerNotes.find(n => n.playerId === playerId)`. -/
def getPlayerNote (prefs : UserPreferences) (playerId : String) : Option PlayerNote :=
  prefs.playerNotes.find? (fun n => n.playerId = playerId)

/-- JavaScript `Math.round(x * 100) / 100` (round to two decimal places;
`Math.round` is floor of `x + 1/2`). -/
def jsRound2 (x : ℚ) : ℚ := ((⌊x * 100 + 1 / 2⌋ : ℤ) : ℚ) / 100

/-- `calculateAdjustedValue(player, baseValue)` from
`src/stores/userPreferencesStore.ts` (lines 163-192).  When the player has
no `PlayerNote` the raw base value is returned immediately (`if (!note)
return baseValue`) — no team multiplier and no rounding are applied on
that path.  The decimal literals `1.2`, `0.6`, `1.1`, `0.9` are modelled
as exact rationals. -/
def calculateAdjustedValue (prefs : UserPreferences) (player : Player)
    (baseValue : ℚ) : ℚ :=
  match getPlayerNote prefs player.id with
  | none => baseValue
  | some note =>
    let adjusted := baseValue
    let adjusted :=
      match note.customRanking with
      | some r => (r : ℚ) * 2
      | none => adjusted
    let adjusted :=
      if note.isTarget then adjusted * (12 / 10)
      else if note.isAvoid then adjusted * (6 / 10)
      else adjusted
    let favoriteBoost : ℚ := if player.team ∈ prefs.favoriteTeams then 11 / 10 else 1
    let avoidPenalty : ℚ := if player.team ∈ prefs.avoidTeams then 9 / 10 else 1
    jsRound2 (adjusted * (favoriteBoost * avoidPenalty))

/-! ## Player pool merge (`src/lib/playerDatabase.ts`) -/

/-- Conflict type of the merge report (`'stats' | 'team' | 'position'`). -/
inductive ConflictType
  | stats | team | position
deriving DecidableEq

/-- One entry of the conflict report of `PlayerMergeResult`. -/
structure MergeConflict where
  playerId : String
  playerName : String
  conflictType : ConflictType
  sources : List String
deriving DecidableEq

/-- Result of `mergePlayersFromSources` (database/stats side effects are
outside the merge contract and the claims). -/
structure PlayerMergeResult where
  mergedPlayers : List Player
  duplicatesFound : Nat
  conflicts : List MergeConflict
deriving DecidableEq

/-- Character class `\s` of the JavaScript regexes used by
`normalizePlayerName`, restricted to the ASCII whitespace that can occur
in player-name records. -/
def isWs (c : Char) : Bool := c = ' ' ∨ c = '\t' ∨ c = '\n' ∨ c = '\r'

/-- Character kept by `replace(/[^a-z0-9\s]/g, '')` (the name is already
lower-cased at this point). -/
def isKept (c : Char) : Bool := ('a' ≤ c ∧ c ≤ 'z') ∨ ('0' ≤ c ∧ c ≤ '9') ∨ isWs c

/-- `replace(/\s+/g, ' ')`: collapse each maximal whitespace run to one
space.  `prevWs` records whether the previous character was part of a
whitespace run. -/
def collapseWs (prevWs : Bool) : List Char → List Char
  | [] => []
  | c :: cs =>
    if isWs c then
      if prevWs then collapseWs true cs else ' ' :: collapseWs true cs
    else c :: collapseWs false cs

/-- JavaScript `String.prototype.trim()` on a character list. -/
def trimChars (l : List Char) : List Char :=
  ((l.dropWhile isWs).reverse.dropWhile isWs).reverse

/-- Word character (`\w`) for the `\b` boundaries of the suffix regex. -/
def isWordChar (c : Char) : Bool := c.isAlphanum ∨ c = '_'

/-- The alternatives of `/\b(jr|sr|iii|ii|iv)\b/g` in the order the regex
engine tries them. -/
def suffixPatterns : List (List Char) :=
  [['j', 'r'], ['s', 'r'], ['i', 'i', 'i'], ['i', 'i'], ['i', 'v']]

/-- Try the suffix alternatives at the current position: the first one that
is a prefix of the input and is followed by a word boundary (end of input
or a non-word character) matches, mirroring the regex engine's left-to-right
alternation with backtracking. -/
def trySuffixes (l : List Char) : List (List Char) → Option (List Char)
  | [] => none
  | p :: ps =>
    if p.isPrefixOf l then
      let rest := l.drop p.length
      match rest with
      | [] => some rest
      | c :: _ => if isWordChar c then trySuffixes l ps else some rest
    else trySuffixes l ps

/-- Scanner for `replace(/\b(jr|sr|iii|ii|iv)\b/g, '')`: walk the input
left to right; at a position preceded by a non-word character (or the
start), a matching suffix alternative is deleted and scanning resumes
after it.  `fuel` is an upper bound on remaining steps (each step consumes
at least one character); it is called with the input length. -/
def stripSuffixesGo (fuel : Nat) (prevWord : Bool) (l : List Char) : List Char :=
  match fuel with
  | 0 => l
  | fuel + 1 =>
    match l with
    | [] => []
    | c :: cs =>
      if prevWord then c :: stripSuffixesGo fuel (isWordChar c) cs
      else
        match trySuffixes l suffixPatterns with
        | some rest => stripSuffixesGo fuel true rest
        | none => c :: stripSuffixesGo fuel (isWordChar c) cs

/-- `replace(/\b(jr|sr|iii|ii|iv)\b/g, '')` on a character list. -/
def stripSuffixes (l : List Char) : List Char :=
  stripSuffixesGo l.length false l

/-- `normalizePlayerName(name)` from `src/lib/playerDatabase.ts` (lines
166-174): lower-case, drop non-alphanumeric-non-space characters, collapse
whitespace, trim, strip generational suffixes, trim. -/
def normalizePlayerName (name : String) : String :=
  let step := (name.toList.map Char.toLower).filter isKept
  let step := collapseWs false step
  let step := trimChars step
  let step := stripSuffixes step
  String.mk (trimChars step)

/-- `offensiveMerged.projectedStats[statKey]` truthiness for the stat
reconciliation: a stat slot is "empty" when the key is absent or its value
is `0` (JavaScript falsy). -/
def statFalsy (stats : List (String × ℚ)) (key : String) : Bool :=
  match stats.lookup key with
  | none => true
  | some v => v = 0

/-- Assignment `merged.projectedStats[key] = v` on the insertion-ordered
stat bag. -/
def statSet (stats : List (String × ℚ)) (key : String) (v : ℚ) : List (String × ℚ) :=
  if (stats.lookup key).isSome then
    stats.map (fun kv => if kv.1 = key then (key, v) else kv)
  else stats ++ [(key, v)]

/-- The `Object.keys(offensivePlayer.projectedStats).forEach` loop of
`mergePlayerData`: adopt each truthy incoming stat into a falsy slot of the
merged record. -/
def mergeProjectedStats (merged incoming : List (String × ℚ)) : List (String × ℚ) :=
  incoming.foldl (fun acc kv =>
    if kv.2 ≠ 0 ∧ statFalsy acc kv.1 then statSet acc kv.1 kv.2 else acc) merged

/-- The per-duplicate body of `mergePlayerData` (lines 187-241 of
`src/lib/playerDatabase.ts`): fold one incoming duplicate record into the
accumulating merged record, appending any conflicts.  `basePlayer` is the
group's first record — the code compares `player.team`/`player.position`
against `basePlayer`, not against the evolving merged record. -/
def mergeOneDuplicate (basePlayer : Player) (sources : List String)
    (acc : Player × List MergeConflict) (player : Player) :
    Player × List MergeConflict :=
  let merged := acc.1
  let conflicts := acc.2
  let (merged, conflicts) :=
    if player.team ≠ basePlayer.team then
      let conflicts := conflicts ++
        [{ playerId := basePlayer.id
           playerName := basePlayer.name
           conflictType := .team
           sources := sources }]
      let merged :=
        if player.team ≠ "" ∧ merged.team = "" then { merged with team := player.team }
        else merged
      (merged, conflicts)
    else (merged, conflicts)
  let conflicts :=
    if player.position ≠ basePlayer.position then
      conflicts ++
        [{ playerId := basePlayer.id
           playerName := basePlayer.name
           conflictType := .position
           sources := sources }]
    else conflicts
  let merged :=
    match player.vorp, merged.vorp with
    | some pv, some mv =>
      let merged := if pv > mv then { merged with vorp := some pv } else merged
      { merged with projectedStats := mergeProjectedStats merged.projectedStats player.projectedStats }
    | _, _ => merged
  let merged :=
    match player.tier, merged.tier with
    | some pt, some mt => if pt < mt then { merged with tier := some pt } else merged
    | _, _ => merged
  (merged, conflicts)

/-- `mergePlayerData(playerGroup, conflicts, sources)` from
`src/lib/playerDatabase.ts` (lines 177-244), with the group split into its
first record (the base) and the remaining duplicates, and the mutated
conflicts array returned as a list. -/
def mergePlayerData (basePlayer : Player) (rest : List Player)
    (sources : List String) : Player × List MergeConflict :=
  rest.foldl (mergeOneDuplicate basePlayer sources) (basePlayer, [])

/-- Build the `nameMap` of `mergePlayersFromSources`: group the records by
normalized name, preserving both first-seen key order and in-group record
order (JavaScript `Map` iteration is insertion-ordered). -/
def addToGroups (groups : List (String × List Player)) (key : String)
    (p : Player) : List (String × List Player) :=
  if groups.any (fun g => g.1 = key) then
    groups.map (fun g => if g.1 = key then (g.1, g.2 ++ [p]) else g)
  else groups ++ [(key, [p])]

/-- The grouping pass of `mergePlayersFromSources` (lines 127-135). -/
def groupByNormalizedName (newPlayers : List Player) : List (String × List Player) :=
  newPlayers.foldl (fun groups p => addToGroups groups (normalizePlayerName p.name) p) []

/-- `mergePlayersFromSources(newPlayers, sources)` from
`src/lib/playerDatabase.ts` (lines 122-163), restricted to its returned
merge result (the `this.players` map, IndexedDB save and stats update are
side channels no claim depends on). -/
def mergePlayersFromSources (newPlayers : List Player) (sources : List String) :
    PlayerMergeResult :=
  let groups := groupByNormalizedName newPlayers
  groups.foldl (fun result g =>
    match g.2 with
    | [] => result
    | [player] => { result with mergedPlayers := result.mergedPlayers ++ [player] }
    | basePlayer :: rest =>
      let (mergedPlayer, newConflicts) := mergePlayerData basePlayer rest sources
      { mergedPlayers := result.mergedPlayers ++ [mergedPlayer]
        duplicatesFound := result.duplicatesFound + rest.length
        conflicts := result.conflicts ++ newConflicts })
    { mergedPlayers := [], duplicatesFound := 0, conflicts := [] }

/-! ## Pool partition invariant and the operation wrapper -/

/-- The multiset of rostered players across all teams. -/
def rosterUnion (teams : List DraftTeam) : List Player :=
  (teams.map DraftTeam.roster).flatten

/-- Fallback team value used to express list indexing by a stored `Int`
index in decidable side conditions. -/
def defaultTeam : DraftTeam := { id := "", name := "", roster := [], isUser := false }

/-- The pool invariant of the specification: the available players
together with all rostered players are, as a multiset, exactly the player
pool supplied at initialization, and pool ids are unique (so no player can
be both available and rostered, or on two rosters). -/
def Inv (pool : List Player) (s : DraftStoreState) : Prop :=
  (s.availablePlayers ++ rosterUnion s.teams).Perm pool ∧ (pool.map Player.id).Nodup

instance (pool : List Player) (s : DraftStoreState) : Decidable (Inv pool s) := by
  unfold Inv; infer_instance

/-- The mutating operations of the draft store that touch the player
partition (the claims' "every mutating operation"). -/
inductive DraftOp where
  | init (settings : DraftSettings) (teams : List DraftTeam) (players : List Player)
  | pick (player : Player) (ts : Nat)
  | undo
  | markDrafted (player : Player) (teamIndex : Int) (ts : Nat)

/-- Dispatch a `DraftOp` to the corresponding store action. -/
def applyOp (op : DraftOp) (s : DraftStoreState) : DraftStoreState :=
  match op with
  | .init st teams players => initializeDraft s st teams players
  | .pick p ts => makePick s p ts
  | .undo => undoLastPick s
  | .markDrafted p ti ts => markPlayerAsDrafted s p ti ts

/-- The player pool an operation leaves in force: `initializeDraft`
installs its `players` argument as the new pool, every other operation
keeps the current pool. -/
def opPool (op : DraftOp) (pool : List Player) : List Player :=
  match op with
  | .init _ _ players => players
  | _ => pool

/-- The intended precondition of each operation (the spec's contract):
initialization receives fresh teams and an id-unique pool; a pick is for
an available player while the turn index addresses an existing team; an
effective undo pops a pick whose team index is in range and whose player
is on that team's roster; a manual mark names an available player and an
in-range team. -/
def opOK (op : DraftOp) (s : DraftStoreState) : Prop :=
  match op with
  | .init _ teams players =>
      (∀ t ∈ teams, t.roster = []) ∧ (players.map Player.id).Nodup
  | .pick p _ =>
      s.settings.isSome = true →
        p ∈ s.availablePlayers ∧ 0 ≤ s.currentTeamIndex ∧
          s.currentTeamIndex < (s.teams.length : Int)
  | .undo =>
      (s.picks.getLast?).elim True (fun lp =>
        (lp.player).elim True (fun q =>
          0 ≤ lp.teamIndex ∧ lp.teamIndex < (s.teams.length : Int) ∧
            q ∈ (s.teams.getD lp.teamIndex.toNat defaultTeam).roster))
  | .markDrafted p ti _ =>
      p ∈ s.availablePlayers ∧ 0 ≤ ti ∧ ti < (s.teams.length : Int)

instance (op : DraftOp) (s : DraftStoreState) : Decidable (opOK op s) := by
  cases op with
  | init st teams players => exact inferInstanceAs (Decidable (_ ∧ _))
  | pick p ts => exact inferInstanceAs (Decidable (_ → _ ∧ _ ∧ _))
  | undo =>
    simp only [opOK]
    cases s.picks.getLast? with
    | none => exact inferInstanceAs (Decidable True)
    | some lp =>
      simp only [Option.elim]
      cases lp.player with
      | none => exact inferInstanceAs (Decidable True)
      | some q =>
        simp only [Option.elim]
        exact inferInstanceAs (Decidable (_ ∧ _ ∧ _))
  | markDrafted p ti ts => exact inferInstanceAs (Decidable (_ ∧ _ ∧ _))


/-! ## Concrete fixtures used to evaluate the code on explicit inputs -/

/-- A statless player record (the stat bags play no role in the draft-store
scenarios). -/
def mkPlayer (id name team : String) (position : Position) : Player :=
  { id := id, name := name, team := team, position := position, byeWeek := 0,
    vorp := none, fps := none, tier := none, projectedStats := [] }

/-- A fresh (empty-roster) team. -/
def mkTeam (i : Nat) : DraftTeam :=
  { id := toString i, name := toString i, roster := [], isUser := i = 0 }

/-- One slot per roster position. -/
def rosterOnes : RosterPositions := ⟨1, 1, 1, 1, 1, 1, 1, 1, 1, 1, 1, 1⟩

/-- All roster counts zero (a configuration the spec says must be
rejected). -/
def rosterZeros : RosterPositions := ⟨0, 0, 0, 0, 0, 0, 0, 0, 0, 0, 0, 0⟩

/-- 12-team snake settings for the round-boundary scenario. -/
def snake12Settings : DraftSettings :=
  { numberOfTeams := 12, userTeamIndex := 0, draftType := .snake,
    pickTimeLimit := 60, rosterPositions := rosterOnes }

/-- 2-team snake settings for the small scenarios. -/
def twoTeamSettings : DraftSettings :=
  { numberOfTeams := 2, userTeamIndex := 0, draftType := .snake,
    pickTimeLimit := 60, rosterPositions := rosterOnes }

/-- Zero-team, zero-roster settings (the invalid configuration of the
initialization claim). -/
def zeroSettings : DraftSettings :=
  { numberOfTeams := 0, userTeamIndex := 0, draftType := .snake,
    pickTimeLimit := 0, rosterPositions := rosterZeros }

def alpha : Player := mkPlayer "alpha" "Alpha" "KC" .RB

def beta : Player := mkPlayer "beta" "Beta" "DAL" .WR

def gamma : Player := mkPlayer "gamma" "Gamma" "PIT" .TE

/-- A numbered pool of distinct players. -/
def poolPlayers (n : Nat) : List Player :=
  (List.range n).map (fun i => mkPlayer (toString i) (toString i) "T" .RB)

/-- Fresh 12-team snake session over a 13-player pool. -/
def snake12Start : DraftStoreState :=
  initializeDraft initialStoreState snake12Settings ((List.range 12).map mkTeam)
    (poolPlayers 13)

/-- The session after the first 12 picks have been recorded through
`makePick`. -/
def snake12After12 : DraftStoreState :=
  (poolPlayers 12).foldl (fun s p => makePick s p 0) snake12Start

/-- 2-team session whose available pool is empty (so any player is outside
it). -/
def emptyPoolState : DraftStoreState :=
  initializeDraft initialStoreState twoTeamSettings [mkTeam 0, mkTeam 1] []

/-- 2-team session with a deliberately non-name-sorted available list and a
mid-countdown timer. -/
def roundtripState : DraftStoreState :=
  updateTimer
    (initializeDraft initialStoreState twoTeamSettings [mkTeam 0, mkTeam 1] [beta, alpha])
    37

/-- 2-team session over the one-player pool `[alpha]`. -/
def singlePoolState : DraftStoreState :=
  initializeDraft initialStoreState twoTeamSettings [mkTeam 0, mkTeam 1] [alpha]

/-- Preferences whose only content is a favorite team. -/
def favKCPrefs : UserPreferences :=
  { favoriteTeams := ["KC"], avoidTeams := [], playerNotes := [],
    draftStrategy := "balanced", prioritizePositions := [.RB, .WR] }

/-- Empty preferences: no notes, no team preferences. -/
def noPrefs : UserPreferences :=
  { favoriteTeams := [], avoidTeams := [], playerNotes := [],
    draftStrategy := "balanced", prioritizePositions := [] }

/-- Preferences marking exactly one player as a target (no other
preference of any kind). -/
def targetPrefsFor (pid : String) : UserPreferences :=
  { favoriteTeams := [], avoidTeams := [],
    playerNotes := [{ playerId := pid, note := "", isTarget := true,
                      isAvoid := false, customRanking := none }],
    draftStrategy := "balanced", prioritizePositions := [] }

/-- Preferences marking exactly one player as avoid (no other preference
of any kind). -/
def avoidPrefsFor (pid : String) : UserPreferences :=
  { favoriteTeams := [], avoidTeams := [],
    playerNotes := [{ playerId := pid, note := "", isTarget := false,
                      isAvoid := true, customRanking := none }],
    draftStrategy := "balanced", prioritizePositions := [] }

/-- Source-A record of the merge scenario. -/
def henryA : Player := mkPlayer "henry-a" "Derrick Henry" "BAL" .RB

/-- Source-B record of the merge scenario: suffixed name, empty team. -/
def henryB : Player := mkPlayer "henry-b" "Derrick Henry Jr." "" .RB

/-! ## Helper lemmas about the embedding's building blocks -/

theorem mapWithIndex_congr {f g : Nat → α → β} :
    ∀ {l : List α}, (∀ i a, i < l.length → a ∈ l → f i a = g i a) →
      mapWithIndex f l = mapWithIndex g l
  | [], _ => rfl
  | a :: as, h => by
    simp only [mapWithIndex]
    refine congrArg₂ _ (h 0 a (by simp) (by simp)) (mapWithIndex_congr ?_)
    intro i x hi hx
    exact h (i + 1) x (by simpa using hi) (by simp [hx])

theorem mapWithIndex_eq_self {f : Nat → α → α} :
    ∀ {l : List α}, (∀ i a, i < l.length → a ∈ l → f i a = a) → mapWithIndex f l = l
  | [], _ => rfl
  | a :: as, h => by
    simp only [mapWithIndex]
    refine congrArg₂ _ (h 0 a (by simp) (by simp)) (mapWithIndex_eq_self ?_)
    intro i x hi hx
    exact h (i + 1) x (by simpa using hi) (by simp [hx])

theorem mapWithIndex_comp (f g : Nat → α → α) :
    ∀ (l : List α), mapWithIndex f (mapWithIndex g l) = mapWithIndex (fun i a => f i (g i a)) l
  | [] => rfl
  | a :: as => by
    simp only [mapWithIndex]
    exact congrArg _ (mapWithIndex_comp _ _ as)

/-- Applying an index-guarded update `if i = |l₁| then g else id` to
`l₁ ++ t :: l₂` rewrites exactly the element at position `|l₁|`. -/
theorem mapWithIndex_ite_eq (g : α → α) :
    ∀ (l₁ : List α) (t : α) (l₂ : List α),
      mapWithIndex (fun i x => if (i : Int) = (l₁.length : Int) then g x else x)
        (l₁ ++ t :: l₂) = l₁ ++ g t :: l₂
  | [], t, l₂ => by
    simp only [List.nil_append, List.length_nil, mapWithIndex, Nat.cast_zero, if_pos rfl]
    refine congrArg _ (mapWithIndex_eq_self ?_)
    intro i a _ _
    rw [if_neg (by push_cast; omega)]
  | a :: l₁, t, l₂ => by
    simp only [List.cons_append, mapWithIndex, List.length_cons]
    have h0 : ¬ ((0 : Nat) : Int) = ((l₁.length + 1 : Nat) : Int) := by
      push_cast; omega
    rw [if_neg h0]
    refine congrArg _ ?_
    rw [mapWithIndex_congr (g := fun i x => if (i : Int) = (l₁.length : Int) then g x else x)
      (fun i x _ _ => by
        have : ((i + 1 : Nat) : Int) = ((l₁.length + 1 : Nat) : Int) ↔
            ((i : Nat) : Int) = (l₁.length : Int) := by push_cast; omega
        simp only [this])]
    exact mapWithIndex_ite_eq g l₁ t l₂

theorem insertByName_perm (p : Player) :
    ∀ (l : List Player), (insertByName p l).Perm (p :: l)
  | [] => List.Perm.refl _
  | q :: qs => by
    simp only [insertByName]
    by_cases h : q.name.toList < p.name.toList
    · rw [if_pos h]
      exact ((insertByName_perm p qs).cons q).trans (List.Perm.swap p q qs)
    · rw [if_neg h]

theorem sortByName_perm : ∀ (l : List Player), (sortByName l).Perm l
  | [] => List.Perm.refl _
  | p :: ps => (insertByName_perm p (sortByName ps)).trans ((sortByName_perm ps).cons p)

theorem rosterUnion_append (l₁ l₂ : List DraftTeam) :
    rosterUnion (l₁ ++ l₂) = rosterUnion l₁ ++ rosterUnion l₂ := by
  simp [rosterUnion]

theorem rosterUnion_cons (t : DraftTeam) (l : List DraftTeam) :
    rosterUnion (t :: l) = t.roster ++ rosterUnion l := by
  simp [rosterUnion]

theorem rosterUnion_eq_nil (teams : List DraftTeam)
    (h : ∀ t ∈ teams, t.roster = []) : rosterUnion teams = [] := by
  induction teams with
  | nil => rfl
  | cons t ts ih =>
    rw [rosterUnion_cons, h t (by simp), List.nil_append]
    exact ih (fun u hu => h u (by simp [hu]))

theorem filter_ne_of_not_mem_id (l : List Player) (pid : String)
    (h : pid ∉ l.map Player.id) :
    l.filter (fun q => q.id ≠ pid) = l := by
  induction l with
  | nil => rfl
  | cons a as ih =>
    have ha : a.id ≠ pid := by
      intro hc; exact h (by simp [← hc])
    simp only [List.filter_cons, decide_eq_true_eq]
    rw [if_pos ha, ih (fun hc => h (by simp [hc]))]

/-- Under id-uniqueness, the store's id-based filter removes exactly the
picked player. -/
theorem filter_ne_eq_erase (l : List Player) (p : Player)
    (hm : p ∈ l) (hn : (l.map Player.id).Nodup) :
    l.filter (fun q => q.id ≠ p.id) = l.erase p := by
  induction l with
  | nil => cases hm
  | cons a as ih =>
    simp only [List.map_cons, List.nodup_cons] at hn
    by_cases hid : a.id = p.id
    · have hap : a = p := by
        rcases List.mem_cons.mp hm with h | h
        · exact h.symm
        · exact absurd (hid ▸ List.mem_map_of_mem Player.id h) hn.1
      subst hap
      simp only [List.filter_cons, decide_eq_true_eq]
      rw [if_neg (by simp), List.erase_cons_head,
        filter_ne_of_not_mem_id as a.id hn.1]
    · have hpm : p ∈ as := by
        rcases List.mem_cons.mp hm with h | h
        · exact absurd (h ▸ rfl) (Ne.symm hid)
        · exact h
      simp only [List.filter_cons, decide_eq_true_eq]
      rw [if_pos hid, List.erase_cons_tail, ih hpm hn.2]
      simp only [beq_iff_eq]
      intro hc
      exact hid (hc ▸ rfl)

/-- Decomposition of a list at a valid index `j`. -/
theorem exists_decomp {α : Type _} (l : List α) (j : Nat) (h : j < l.length) :
    ∃ l₁ t l₂, l = l₁ ++ t :: l₂ ∧ l₁.length = j ∧ t = l.get ⟨j, h⟩ := by
  refine ⟨l.take j, l.get ⟨j, h⟩, l.drop (j + 1), ?_, ?_, rfl⟩
  · conv_lhs => rw [← List.take_append_drop j l]
    rw [List.drop_eq_getElem_cons h]
    rfl
  · simpa using Nat.le_of_lt h

/-- Appending a player to the roster at valid index `j` adds exactly that
player to the roster multiset. -/
theorem rosterUnion_appendAt_perm (teams : List DraftTeam) (p : Player) (j : Int)
    (h0 : 0 ≤ j) (h1 : j < (teams.length : Int)) :
    (rosterUnion (mapWithIndex
        (fun i t => if (i : Int) = j then { t with roster := t.roster ++ [p] } else t)
        teams)).Perm (p :: rosterUnion teams) := by
  have hj : j.toNat < teams.length := by omega
  obtain ⟨l₁, t, l₂, heq, hlen, -⟩ := exists_decomp teams j.toNat hj
  have hjc : j = (l₁.length : Int) := by rw [hlen]; omega
  subst hjc
  rw [heq, mapWithIndex_ite_eq, rosterUnion_append, rosterUnion_cons,
    rosterUnion_append, rosterUnion_cons]
  exact (List.Perm.append_left _
    (List.Perm.append_right _ (List.perm_append_singleton p t.roster))).trans
    List.perm_middle

/-- Filtering the player with id `q.id` out of the roster at valid index
`j` removes exactly `q` from the roster multiset, provided roster ids are
unique and `q` is on that roster. -/
theorem rosterUnion_filterAt_perm (teams : List DraftTeam) (q : Player) (j : Int)
    (h0 : 0 ≤ j) (h1 : j < (teams.length : Int))
    (hq : q ∈ (teams.getD j.toNat defaultTeam).roster)
    (hn : ((rosterUnion teams).map Player.id).Nodup) :
    (rosterUnion teams).Perm (q :: rosterUnion (mapWithIndex
        (fun i t => if (i : Int) = j then
          { t with roster := t.roster.filter (fun p => p.id ≠ q.id) } else t)
        teams)) := by
  have hj : j.toNat < teams.length := by omega
  obtain ⟨l₁, t, l₂, heq, hlen, hget⟩ := exists_decomp teams j.toNat hj
  have hjc : j = (l₁.length : Int) := by rw [hlen]; omega
  subst hjc
  have hqt : q ∈ t.roster := by
    have hgd : teams.getD (((l₁.length : Int)).toNat) defaultTeam = t := by
      rw [List.getD_eq_getElem?_getD, List.getElem?_eq_getElem hj, hget]
      rfl
    rw [← hgd]
    exact hq
  have hnt : (t.roster.map Player.id).Nodup := by
    have hsub : (t.roster.map Player.id).Sublist ((rosterUnion teams).map Player.id) := by
      rw [heq, rosterUnion_append, rosterUnion_cons]
      refine List.Sublist.map Player.id ?_
      exact ((t.roster.sublist_append_left _).trans (List.sublist_append_right _ _))
    exact hsub.nodup hn
  rw [heq, mapWithIndex_ite_eq, rosterUnion_append, rosterUnion_cons,
    rosterUnion_append, rosterUnion_cons, filter_ne_eq_erase t.roster q hqt hnt]
  exact (List.Perm.append_left _
    (List.Perm.append_right _ (List.perm_cons_erase hqt))).trans
    List.perm_middle

/-- Claim-level reading of `Inv`: `availablePlayers` and the roster union
are disjoint, and jointly exhaust the pool. -/
theorem Inv.disjoint_and_exhaustive {pool : List Player} {s : DraftStoreState}
    (h : Inv pool s) :
    (∀ q ∈ s.availablePlayers, q ∉ rosterUnion s.teams) ∧
      (∀ q, q ∈ pool ↔ q ∈ s.availablePlayers ∨ q ∈ rosterUnion s.teams) := by
  obtain ⟨hperm, hnodup⟩ := h
  have hmapperm := hperm.map Player.id
  have hn : ((s.availablePlayers ++ rosterUnion s.teams).map Player.id).Nodup :=
    hmapperm.nodup_iff.mpr hnodup
  rw [List.map_append, List.nodup_append] at hn
  constructor
  · intro q hqa hqr
    exact hn.2.2 (List.mem_map_of_mem Player.id hqa) (List.mem_map_of_mem Player.id hqr)
  · intro q
    rw [← hperm.mem_iff, List.mem_append]

/-! ## Claims -/

/-- C2 (code bug): `makePick`'s incremental next-team computation and the
pure 0-based-round snake formula (used verbatim by `markPlayerAsDrafted`)
do NOT agree.  Concretely, in a 12-team snake draft, after pick 13 (made
by team 11) `makePick` hands pick 14 to team 11 again, while the pure
formula (and `markPlayerAsDrafted`) hands it to team 10; the two schemes
do agree on the turn-around pick 13 itself.  `makePick`'s interior
computation of reversed (even 1-based) rounds returns the CURRENT pick's
team instead of the next one, contradicting its own comments
("Even round: totalTeams, totalTeams-1, ..., 1"). -/
theorem makePick_snake_increment_diverges_from_formula :
    makePickNextTeamIndex 13 11 12 .snake = 11 ∧
    specSnakeTeamIndex 14 12 = 10 ∧
    markDraftedNextTeamIndex 14 11 (some snake12Settings) = 10 ∧
    makePickNextTeamIndex 12 11 12 .snake = 11 ∧
    specSnakeTeamIndex 13 12 = 11 := by
  refine ⟨by decide, by decide, by decide, by decide, by decide⟩

/-- C5 (counterexample): in the 12-team snake session, after the first 12
picks have been recorded through `makePick`, the next pick is pick 13 and
it belongs to team index 11, not team index 0 as the claim states. -/
theorem snake_pick13_not_team_zero_cex :
    snake12After12.currentPick = 13 ∧ snake12After12.currentTeamIndex = 11 ∧
      ¬ snake12After12.currentTeamIndex = 0 := by
  refine ⟨by decide, by decide, by decide⟩

/-- C5 (corrected): in a 12-team snake draft with pick 1 by team 0, after
the first 12 picks pick 13 is assigned to team index 11 (the last team
picks back-to-back across the round-2 reversal boundary); the pure snake
formula agrees. -/
theorem snake_pick13_team_eleven :
    snake12After12.currentPick = 13 ∧ snake12After12.currentTeamIndex = 11 ∧
      specSnakeTeamIndex 13 12 = 11 ∧
      markDraftedNextTeamIndex 13 11 (some snake12Settings) = 11 := by
  refine ⟨by decide, by decide, by decide, by decide⟩

/-- C9 (counterexample): merging the two Derrick Henry records does NOT
yield an empty conflict report — the empty-string team of the source-B
record differs from `"BAL"`, so a team conflict is logged. -/
theorem henry_merge_conflicts_nonempty_cex :
    (mergePlayersFromSources [henryA, henryB] ["sourceA", "sourceB"]).conflicts ≠ [] := by
  decide

/-- C9 (corrected): merging `[{name:"Derrick Henry", team:"BAL"}]` from
source A and `[{name:"Derrick Henry Jr.", team:""}]` from source B yields
exactly one canonical player whose team is `"BAL"` (suffix-stripped name
match, base team kept), one counted duplicate, and exactly one logged
conflict, of type `team` (not zero conflicts). -/
theorem henry_merge_one_player_team_BAL_one_conflict :
    (mergePlayersFromSources [henryA, henryB] ["sourceA", "sourceB"]).mergedPlayers.map
        Player.team = ["BAL"] ∧
    (mergePlayersFromSources [henryA, henryB] ["sourceA", "sourceB"]).mergedPlayers.length
        = 1 ∧
    (mergePlayersFromSources [henryA, henryB] ["sourceA", "sourceB"]).conflicts.map
        MergeConflict.conflictType = [.team] ∧
    (mergePlayersFromSources [henryA, henryB] ["sourceA", "sourceB"]).duplicatesFound
        = 1 := by
  refine ⟨by decide, by decide, by decide, by decide⟩

/-- C4 (counterexample): the partition claim fails as stated: from the
freshly initialized one-player session, the mutating operation
`markPlayerAsDrafted` with the out-of-range team index `-1` leaves the
pool player `alpha` neither in `availablePlayers` nor on any roster, so
the union of the two no longer equals the pool. -/
theorem markDrafted_out_of_range_breaks_partition_cex :
    alpha ∈ [alpha] ∧
    alpha ∉ (markPlayerAsDrafted singlePoolState alpha (-1) 0).availablePlayers ∧
    alpha ∉ rosterUnion (markPlayerAsDrafted singlePoolState alpha (-1) 0).teams := by
  refine ⟨by decide, by decide, by decide⟩

/-- C4 (corrected): every mutating operation of the draft store preserves
the pool partition PROVIDED its intended precondition holds
(initialization with fresh rosters and id-unique pool; picks of available
players with an in-range turn index; undo of a pick whose player is on the
recorded team's roster; manual marks with an in-range team index): the
available players and the rostered players still form, as a multiset,
exactly the governing pool, hence `availablePlayers` and the union of all
rosters are disjoint and jointly exhaust the pool. -/
theorem draft_ops_preserve_pool_partition (pool : List Player) (s : DraftStoreState)
    (op : DraftOp) (hInv : Inv pool s) (hOK : opOK op s) :
    Inv (opPool op pool) (applyOp op s) ∧
      (∀ q ∈ (applyOp op s).availablePlayers, q ∉ rosterUnion (applyOp op s).teams) ∧
      (∀ q, q ∈ opPool op pool ↔
        q ∈ (applyOp op s).availablePlayers ∨ q ∈ rosterUnion (applyOp op s).teams) := by
  have hn : ((s.availablePlayers ++ rosterUnion s.teams).map Player.id).Nodup :=
    (List.Perm.nodup_iff (hInv.1.map Player.id)).mpr hInv.2
  rw [List.map_append, List.nodup_append] at hn
  obtain ⟨hA, hR, hD⟩ := hn
  have main : Inv (opPool op pool) (applyOp op s) := by
    cases op with
    | init st teams players =>
      obtain ⟨hroster, hnodup⟩ := hOK
      refine ⟨?_, hnodup⟩
      simp only [applyOp, initializeDraft, opPool, rosterUnion_eq_nil teams hroster,
        List.append_nil]
      exact List.Perm.refl _
    | pick p ts =>
      cases hset : s.settings with
      | none =>
        simpa only [applyOp, makePick, hset, opPool] using hInv
      | some st =>
        obtain ⟨hmem, h0, h1⟩ := hOK (by rw [hset]; rfl)
        refine ⟨?_, hInv.2⟩
        simp only [applyOp, makePick, hset, opPool]
        rw [filter_ne_eq_erase s.availablePlayers p hmem hA]
        have h2 := rosterUnion_appendAt_perm s.teams p s.currentTeamIndex h0 h1
        refine ((List.Perm.append_left _ h2).trans ?_).trans hInv.1
        refine List.Perm.trans List.perm_middle ?_
        exact List.Perm.append_right _ (List.perm_cons_erase hmem).symm
    | undo =>
      cases hl : s.picks.getLast? with
      | none =>
        simpa only [applyOp, undoLastPick, hl, opPool] using hInv
      | some lp =>
        cases hp : lp.player with
        | none =>
          simpa only [applyOp, undoLastPick, hl, hp, opPool] using hInv
        | some q =>
          rw [opOK, hl] at hOK
          simp only [Option.elim, hp] at hOK
          obtain ⟨h0, h1, hq⟩ := hOK
          refine ⟨?_, hInv.2⟩
          simp only [applyOp, undoLastPick, hl, hp, opPool]
          have hsort : (sortByName (s.availablePlayers ++ [q])).Perm
              (q :: s.availablePlayers) :=
            (sortByName_perm _).trans (List.perm_append_singleton q _)
          have h2 := rosterUnion_filterAt_perm s.teams q lp.teamIndex h0 h1 hq hR
          refine (List.Perm.append_right _ hsort).trans ?_
          refine List.Perm.trans ?_ hInv.1
          refine List.Perm.trans List.perm_middle.symm ?_
          exact List.Perm.append_left _ h2.symm
    | markDrafted p ti ts =>
      obtain ⟨hmem, h0, h1⟩ := hOK
      refine ⟨?_, hInv.2⟩
      simp only [applyOp, markPlayerAsDrafted, opPool]
      rw [if_pos ⟨h0, h1⟩, filter_ne_eq_erase s.availablePlayers p hmem hA]
      have h2 := rosterUnion_appendAt_perm s.teams p ti h0 h1
      refine ((List.Perm.append_left _ h2).trans ?_).trans hInv.1
      refine List.Perm.trans List.perm_middle ?_
      exact List.Perm.append_right _ (List.perm_cons_erase hmem).symm
  exact ⟨main, main.disjoint_and_exhaustive.1, main.disjoint_and_exhaustive.2⟩

/-- C4 (witness): the preservation theorem applied to the concrete
one-player session and the pick of `alpha`. -/
theorem draft_ops_preserve_pool_partition_witness :
    Inv (opPool (.pick alpha 0) [alpha]) (applyOp (.pick alpha 0) singlePoolState) ∧
      (∀ q ∈ (applyOp (.pick alpha 0) singlePoolState).availablePlayers,
        q ∉ rosterUnion (applyOp (.pick alpha 0) singlePoolState).teams) ∧
      (∀ q, q ∈ opPool (.pick alpha 0) [alpha] ↔
        q ∈ (applyOp (.pick alpha 0) singlePoolState).availablePlayers ∨
          q ∈ rosterUnion (applyOp (.pick alpha 0) singlePoolState).teams) :=
  draft_ops_preserve_pool_partition [alpha] singlePoolState (.pick alpha 0)
    (by decide) (by decide)

/-- C1 (counterexample): `makePick` does not reject a player outside
`availablePlayers`: from the 2-team session with an empty pool, picking
`gamma` appends a `DraftPick`, grows team 0's roster to `[gamma]` and
advances `currentPick` from 1 to 2 — the state does not remain
unchanged. -/
theorem makePick_no_availability_check_cex :
    gamma ∉ emptyPoolState.availablePlayers ∧
    (makePick emptyPoolState gamma 0).picks.length = 1 ∧
    emptyPoolState.picks.length = 0 ∧
    (makePick emptyPoolState gamma 0).currentPick = 2 ∧
    emptyPoolState.currentPick = 1 ∧
    rosterUnion (makePick emptyPoolState gamma 0).teams = [gamma] := by
  refine ⟨by decide, by decide, by decide, by decide, by decide, by decide⟩

/-- C1 (corrected): `makePick` performs no availability precondition
check — its only guard is a missing settings object.  With settings
present and a player whose id is NOT in `availablePlayers`, the call
proceeds: the pick is appended to the log, `availablePlayers` is unchanged
(the id-filter removes nothing), `currentPick` advances, the turn index
moves on, and (whenever the current turn index addresses an existing team)
that team's roster grows by the player. -/
theorem makePick_unavailable_player_proceeds (s : DraftStoreState) (st : DraftSettings)
    (p : Player) (ts : Nat) (hset : s.settings = some st)
    (hp : p.id ∉ s.availablePlayers.map Player.id) :
    (makePick s p ts).picks = s.picks ++
      [{ pickNumber := s.currentPick, teamIndex := s.currentTeamIndex,
         player := some p, timestamp := ts }] ∧
    (makePick s p ts).availablePlayers = s.availablePlayers ∧
    (makePick s p ts).currentPick = s.currentPick + 1 ∧
    (makePick s p ts).currentTeamIndex =
      makePickNextTeamIndex s.currentPick s.currentTeamIndex st.numberOfTeams
        st.draftType ∧
    (0 ≤ s.currentTeamIndex → s.currentTeamIndex < (s.teams.length : Int) →
      (rosterUnion (makePick s p ts).teams).Perm (p :: rosterUnion s.teams)) := by
  refine ⟨?_, ?_, ?_, ?_, ?_⟩
  · simp [makePick, hset]
  · simp only [makePick, hset]
    exact filter_ne_of_not_mem_id _ _ hp
  · simp [makePick, hset]
  · simp [makePick, hset]
  · intro h0 h1
    simp only [makePick, hset]
    exact rosterUnion_appendAt_perm s.teams p s.currentTeamIndex h0 h1

/-- C1 (witness): the non-rejection theorem applied to the empty-pool
session and the outside player `gamma`. -/
theorem makePick_unavailable_player_proceeds_witness :
    (makePick emptyPoolState gamma 0).picks = emptyPoolState.picks ++
      [{ pickNumber := emptyPoolState.currentPick,
         teamIndex := emptyPoolState.currentTeamIndex,
         player := some gamma, timestamp := 0 }] ∧
    (makePick emptyPoolState gamma 0).availablePlayers =
      emptyPoolState.availablePlayers ∧
    (makePick emptyPoolState gamma 0).currentPick =
      emptyPoolState.currentPick + 1 ∧
    (makePick emptyPoolState gamma 0).currentTeamIndex =
      makePickNextTeamIndex emptyPoolState.currentPick
        emptyPoolState.currentTeamIndex twoTeamSettings.numberOfTeams
        twoTeamSettings.draftType ∧
    (0 ≤ emptyPoolState.currentTeamIndex →
      emptyPoolState.currentTeamIndex < (emptyPoolState.teams.length : Int) →
      (rosterUnion (makePick emptyPoolState gamma 0).teams).Perm
        (gamma :: rosterUnion emptyPoolState.teams)) :=
  makePick_unavailable_player_proceeds emptyPoolState twoTeamSettings gamma 0 rfl
    (by decide)

/-- C10 (confirmed): `markPlayerAsDrafted` with a team index outside
`[0, teams.length)` removes the player from `availablePlayers` (no
remaining entry carries the player's id), appends a `DraftPick` carrying
the out-of-range index, and advances `currentPick`, while every roster is
left untouched — the player lands in neither the pool nor any roster. -/
theorem markPlayerAsDrafted_out_of_range_drops_player (s : DraftStoreState)
    (p : Player) (ti : Int) (ts : Nat)
    (h : ¬ (0 ≤ ti ∧ ti < (s.teams.length : Int))) :
    (markPlayerAsDrafted s p ti ts).teams = s.teams ∧
    (markPlayerAsDrafted s p ti ts).availablePlayers =
      s.availablePlayers.filter (fun q => q.id ≠ p.id) ∧
    (∀ q ∈ (markPlayerAsDrafted s p ti ts).availablePlayers, q.id ≠ p.id) ∧
    (markPlayerAsDrafted s p ti ts).picks = s.picks ++
      [{ pickNumber := s.currentPick, teamIndex := ti, player := some p,
         timestamp := ts }] ∧
    (markPlayerAsDrafted s p ti ts).currentPick = s.currentPick + 1 := by
  refine ⟨?_, ?_, ?_, ?_, ?_⟩
  · simp [markPlayerAsDrafted, if_neg h]
  · simp [markPlayerAsDrafted, if_neg h]
  · intro q hq
    simp only [markPlayerAsDrafted, if_neg h] at hq
    exact of_decide_eq_true (List.mem_filter.mp hq).2
  · simp [markPlayerAsDrafted, if_neg h]
  · simp [markPlayerAsDrafted, if_neg h]

/-- C10 (witness): the out-of-range theorem applied to the one-player
session with team index `-1`. -/
theorem markPlayerAsDrafted_out_of_range_drops_player_witness :
    (markPlayerAsDrafted singlePoolState alpha (-1) 0).teams =
      singlePoolState.teams ∧
    (markPlayerAsDrafted singlePoolState alpha (-1) 0).availablePlayers =
      singlePoolState.availablePlayers.filter (fun q => q.id ≠ alpha.id) ∧
    (∀ q ∈ (markPlayerAsDrafted singlePoolState alpha (-1) 0).availablePlayers,
      q.id ≠ alpha.id) ∧
    (markPlayerAsDrafted singlePoolState alpha (-1) 0).picks =
      singlePoolState.picks ++
        [{ pickNumber := singlePoolState.currentPick, teamIndex := -1,
           player := some alpha, timestamp := 0 }] ∧
    (markPlayerAsDrafted singlePoolState alpha (-1) 0).currentPick =
      singlePoolState.currentPick + 1 :=
  markPlayerAsDrafted_out_of_range_drops_player singlePoolState alpha (-1) 0
    (by decide)

/-- C8 (counterexample): `initializeDraft` does not reject the all-zero
configuration: called with zero teams and zero total roster slots on the
mid-draft 12-team session, it still installs the zero settings and resets
the pick counter from 13 to 1 — session fields are created and
overwritten. -/
theorem initializeDraft_zero_config_overwrites_state_cex :
    zeroSettings.numberOfTeams = 0 ∧
    RosterPositions.total zeroSettings.rosterPositions = 0 ∧
    (initializeDraft snake12After12 zeroSettings [] []).settings =
      some zeroSettings ∧
    (initializeDraft snake12After12 zeroSettings [] []).currentPick = 1 ∧
    snake12After12.currentPick = 13 ∧
    initializeDraft snake12After12 zeroSettings [] [] ≠ snake12After12 := by
  refine ⟨by decide, by decide, by decide, by decide, by decide, by decide⟩

/-- C8 (corrected): `initializeDraft` performs no configuration
validation: even for settings with zero teams or zero total roster slots
it unconditionally overwrites the session — settings installed, teams and
pool replaced, pick log cleared, counters reset, timer set to the
configured limit, session inactive. -/
theorem initializeDraft_no_validation (s : DraftStoreState)
    (settings : DraftSettings) (teams : List DraftTeam) (players : List Player)
    (_h : settings.numberOfTeams = 0 ∨ RosterPositions.total settings.rosterPositions = 0) :
    (initializeDraft s settings teams players).settings = some settings ∧
    (initializeDraft s settings teams players).teams = teams ∧
    (initializeDraft s settings teams players).availablePlayers = players ∧
    (initializeDraft s settings teams players).picks = [] ∧
    (initializeDraft s settings teams players).currentPick = 1 ∧
    (initializeDraft s settings teams players).currentTeamIndex = 0 ∧
    (initializeDraft s settings teams players).timeRemaining =
      settings.pickTimeLimit ∧
    (initializeDraft s settings teams players).isActive = false :=
  ⟨rfl, rfl, rfl, rfl, rfl, rfl, rfl, rfl⟩

/-- C8 (witness): the no-validation theorem applied to the zero
configuration on the pristine store state. -/
theorem initializeDraft_no_validation_witness :
    (initializeDraft initialStoreState zeroSettings [] []).settings =
      some zeroSettings ∧
    (initializeDraft initialStoreState zeroSettings [] []).teams = [] ∧
    (initializeDraft initialStoreState zeroSettings [] []).availablePlayers = [] ∧
    (initializeDraft initialStoreState zeroSettings [] []).picks = [] ∧
    (initializeDraft initialStoreState zeroSettings [] []).currentPick = 1 ∧
    (initializeDraft initialStoreState zeroSettings [] []).currentTeamIndex = 0 ∧
    (initializeDraft initialStoreState zeroSettings [] []).timeRemaining =
      zeroSettings.pickTimeLimit ∧
    (initializeDraft initialStoreState zeroSettings [] []).isActive = false :=
  initializeDraft_no_validation initialStoreState zeroSettings [] [] (Or.inl rfl)

/-- C3 (counterexample): pick-then-undo is not bit-for-bit state
restoration (timestamps aside): from the 2-team session with the
non-name-sorted pool `[beta, alpha]` and 37 seconds on the clock, picking
`alpha` and undoing returns the pool name-sorted (`[alpha, beta]`) and the
timer reset to the configured 60-second limit, even though the pick log is
restored exactly. -/
theorem makePick_undo_roundtrip_cex :
    (undoLastPick (makePick roundtripState alpha 0)).availablePlayers ≠
      roundtripState.availablePlayers ∧
    (undoLastPick (makePick roundtripState alpha 0)).timeRemaining ≠
      roundtripState.timeRemaining ∧
    (undoLastPick (makePick roundtripState alpha 0)).picks =
      roundtripState.picks ∧
    undoLastPick (makePick roundtripState alpha 0) ≠ roundtripState := by
  refine ⟨by decide, by decide, by decide, by decide⟩

/-- C3 (corrected): for a session with settings present, an available
player with a pool-unique id that is on no roster, `makePick` followed by
`undoLastPick` restores the pick log, every team roster, `currentPick`,
`currentTeamIndex`, `settings` and `isActive` exactly, and restores
`availablePlayers` only up to permutation — the pool comes back
name-sorted (`sortByName` of the removal result plus the player) rather
than in its original order — while `timeRemaining` ends at the configured
`pickTimeLimit` instead of its pre-pick value. -/
theorem makePick_undo_roundtrip (s : DraftStoreState) (st : DraftSettings)
    (p : Player) (ts : Nat) (hset : s.settings = some st)
    (hp : p ∈ s.availablePlayers)
    (hA : (s.availablePlayers.map Player.id).Nodup)
    (hT : ∀ t ∈ s.teams, p.id ∉ t.roster.map Player.id) :
    (undoLastPick (makePick s p ts)).picks = s.picks ∧
    (undoLastPick (makePick s p ts)).teams = s.teams ∧
    (undoLastPick (makePick s p ts)).currentPick = s.currentPick ∧
    (undoLastPick (makePick s p ts)).currentTeamIndex = s.currentTeamIndex ∧
    (undoLastPick (makePick s p ts)).settings = s.settings ∧
    (undoLastPick (makePick s p ts)).isActive = s.isActive ∧
    ((undoLastPick (makePick s p ts)).availablePlayers).Perm
      s.availablePlayers ∧
    (undoLastPick (makePick s p ts)).availablePlayers =
      sortByName (s.availablePlayers.filter (fun q => q.id ≠ p.id) ++ [p]) ∧
    (undoLastPick (makePick s p ts)).timeRemaining = st.pickTimeLimit := by
  refine ⟨?_, ?_, ?_, ?_, ?_, ?_, ?_, ?_, ?_⟩
  · simp [undoLastPick, makePick, hset, List.getLast?_concat, List.dropLast_concat]
  · simp only [undoLastPick, makePick, hset, List.getLast?_concat,
      List.dropLast_concat]
    rw [mapWithIndex_comp]
    refine mapWithIndex_eq_self ?_
    intro i t hi ht
    by_cases hit : (i : Int) = s.currentTeamIndex
    · simp only [if_pos hit, List.filter_append]
      rw [filter_ne_of_not_mem_id t.roster p.id (hT t ht)]
      simp
    · simp only [if_neg hit]
  · simp [undoLastPick, makePick, hset, List.getLast?_concat]
  · simp [undoLastPick, makePick, hset, List.getLast?_concat]
  · simp [undoLastPick, makePick, hset, List.getLast?_concat]
  · simp [undoLastPick, makePick, hset, List.getLast?_concat]
  · simp only [undoLastPick, makePick, hset, List.getLast?_concat]
    refine (sortByName_perm _).trans ?_
    rw [filter_ne_eq_erase s.availablePlayers p hp hA]
    exact (List.perm_append_singleton p _).trans (List.perm_cons_erase hp).symm
  · simp only [undoLastPick, makePick, hset, List.getLast?_concat]
  · simp [undoLastPick, makePick, hset, List.getLast?_concat]

/-- C3 (witness): the round-trip theorem applied to the concrete 2-team
session and the pick of `alpha`. -/
theorem makePick_undo_roundtrip_witness :
    (undoLastPick (makePick roundtripState alpha 0)).picks =
      roundtripState.picks ∧
    (undoLastPick (makePick roundtripState alpha 0)).teams =
      roundtripState.teams ∧
    (undoLastPick (makePick roundtripState alpha 0)).currentPick =
      roundtripState.currentPick ∧
    (undoLastPick (makePick roundtripState alpha 0)).currentTeamIndex =
      roundtripState.currentTeamIndex ∧
    (undoLastPick (makePick roundtripState alpha 0)).settings =
      roundtripState.settings ∧
    (undoLastPick (makePick roundtripState alpha 0)).isActive =
      roundtripState.isActive ∧
    ((undoLastPick (makePick roundtripState alpha 0)).availablePlayers).Perm
      roundtripState.availablePlayers ∧
    (undoLastPick (makePick roundtripState alpha 0)).availablePlayers =
      sortByName
        (roundtripState.availablePlayers.filter (fun q => q.id ≠ alpha.id) ++
          [alpha]) ∧
    (undoLastPick (makePick roundtripState alpha 0)).timeRemaining =
      twoTeamSettings.pickTimeLimit :=
  makePick_undo_roundtrip roundtripState twoTeamSettings alpha 0 rfl
    (by decide) (by decide) (by decide)

/-- C6 (counterexample): the adjustment pipeline does NOT apply to a
player without a per-player preference record: `alpha` plays for the
favorite team `"KC"` but has no note, so `calculateAdjustedValue` returns
the raw base `10.555` — neither the `1.1` favorite-team multiplier nor the
two-decimal rounding is applied (the claimed result would be `11.61`). -/
theorem calculateAdjustedValue_no_note_skips_adjustments_cex :
    alpha.team ∈ favKCPrefs.favoriteTeams ∧
    getPlayerNote favKCPrefs alpha.id = none ∧
    calculateAdjustedValue favKCPrefs alpha (10555 / 1000) = 10555 / 1000 ∧
    jsRound2 ((10555 / 1000) * (11 / 10)) = 1161 / 100 ∧
    (10555 / 1000 : ℚ) ≠ 1161 / 100 := by
  refine ⟨by decide, rfl, ?_, ?_, by norm_num⟩
  · norm_num [calculateAdjustedValue, getPlayerNote, favKCPrefs]
  · have h : ⌊((10555 / 1000 : ℚ) * (11 / 10) * 100 + 1 / 2)⌋ = (1161 : ℤ) := by
      rw [Int.floor_eq_iff]
      norm_num
    rw [jsRound2, h]
    norm_num

/-- C6 (corrected): `calculateAdjustedValue` follows the fixed-order
pipeline — custom rank replaces the base as `customRanking * 2`, then the
`1.2`/`0.6` target/avoid factor, then the `1.1` favorite-team and `0.9`
avoid-team multipliers, then rounding to two decimals — ONLY when the
player has a `PlayerNote`; a player with no preference record gets the raw
base value back with no team multiplier and no rounding. -/
theorem calculateAdjustedValue_closed_form (prefs : UserPreferences) (p : Player)
    (b : ℚ) :
    calculateAdjustedValue prefs p b =
      match getPlayerNote prefs p.id with
      | none => b
      | some note =>
        jsRound2 ((match note.customRanking with
            | some r => (r : ℚ) * 2
            | none => b) *
          (if note.isTarget then 12 / 10 else if note.isAvoid then 6 / 10 else 1) *
          ((if p.team ∈ prefs.favoriteTeams then 11 / 10 else 1) *
            (if p.team ∈ prefs.avoidTeams then 9 / 10 else 1))) := by
  unfold calculateAdjustedValue
  cases hnote : getPlayerNote prefs p.id with
  | none => rfl
  | some note =>
    obtain ⟨pid, nt, tgt, av, cr⟩ := note
    cases cr <;> cases tgt <;> cases av <;> simp

/-- C7 (counterexample): valuation adjustment is not strictly monotone for
every base value: at base value `0` the target-marked adjusted value and
the avoid-marked adjusted value both equal the unmarked baseline `0`, so
neither strict inequality holds. -/
theorem adjusted_value_monotonicity_fails_at_zero_cex :
    ¬ (calculateAdjustedValue noPrefs alpha 0 <
        calculateAdjustedValue (targetPrefsFor alpha.id) alpha 0) ∧
    ¬ (calculateAdjustedValue (avoidPrefsFor alpha.id) alpha 0 <
        calculateAdjustedValue noPrefs alpha 0) := by
  have ht : calculateAdjustedValue (targetPrefsFor alpha.id) alpha 0 = 0 := by
    norm_num [calculateAdjustedValue, getPlayerNote, targetPrefsFor, jsRound2]
  have ha : calculateAdjustedValue (avoidPrefsFor alpha.id) alpha 0 = 0 := by
    norm_num [calculateAdjustedValue, getPlayerNote, avoidPrefsFor, jsRound2]
  have hb : calculateAdjustedValue noPrefs alpha 0 = 0 := rfl
  rw [ht, ha, hb]
  norm_num

/-- C7 (corrected): for base values of at least `1/40` (= 0.025, the
threshold above which the two-decimal rounding cannot cancel the ±20/40%
factors), marking a player target — with no other preference of any
kind — yields a strictly larger adjusted value than the unmarked baseline,
and marking avoid a strictly smaller one; at base `0` (and small enough
positive bases) both collapse to the baseline. -/
theorem adjusted_value_target_avoid_monotone (p : Player) (b : ℚ)
    (hb : 1 / 40 ≤ b) :
    calculateAdjustedValue noPrefs p b <
      calculateAdjustedValue (targetPrefsFor p.id) p b ∧
    calculateAdjustedValue (avoidPrefsFor p.id) p b <
      calculateAdjustedValue noPrefs p b := by
  have hfindT : getPlayerNote (targetPrefsFor p.id) p.id =
      some { playerId := p.id, note := "", isTarget := true, isAvoid := false,
             customRanking := none } := by
    simp [getPlayerNote, targetPrefsFor]
  have hfindA : getPlayerNote (avoidPrefsFor p.id) p.id =
      some { playerId := p.id, note := "", isTarget := false, isAvoid := true,
             customRanking := none } := by
    simp [getPlayerNote, avoidPrefsFor]
  have hbase : calculateAdjustedValue noPrefs p b = b := rfl
  have htgt : calculateAdjustedValue (targetPrefsFor p.id) p b =
      jsRound2 (b * (12 / 10) * (1 * 1)) := by
    unfold calculateAdjustedValue
    rw [hfindT]
    rfl
  have hav : calculateAdjustedValue (avoidPrefsFor p.id) p b =
      jsRound2 (b * (6 / 10) * (1 * 1)) := by
    unfold calculateAdjustedValue
    rw [hfindA]
    rfl
  constructor
  · rw [hbase, htgt, jsRound2,
      show (b * (12 / 10) * (1 * 1) * 100 + 1 / 2 : ℚ) = 120 * b + 1 / 2 by ring]
    have hfl := Int.sub_one_lt_floor (120 * b + 1 / 2 : ℚ)
    rw [lt_div_iff₀ (by norm_num : (0 : ℚ) < 100)]
    linarith
  · rw [hbase, hav, jsRound2,
      show (b * (6 / 10) * (1 * 1) * 100 + 1 / 2 : ℚ) = 60 * b + 1 / 2 by ring]
    have hfl := Int.floor_le (60 * b + 1 / 2 : ℚ)
    rw [div_lt_iff₀ (by norm_num : (0 : ℚ) < 100)]
    linarith

/-- C7 (witness): the monotonicity theorem applied to `alpha` at base
value `1`. -/
theorem adjusted_value_target_avoid_monotone_witness :
    calculateAdjustedValue noPrefs alpha 1 <
      calculateAdjustedValue (targetPrefsFor alpha.id) alpha 1 ∧
    calculateAdjustedValue (avoidPrefsFor alpha.id) alpha 1 <
      calculateAdjustedValue noPrefs alpha 1 :=
  adjusted_value_target_avoid_monotone alpha 1 (by norm_num)

end FantasyDraft
